import Mathlib

/-!
Shallow embedding of the contract-dependency graph visualization engine
(the `GraphLayout` D3 component and its hover card) of the crystal-clear
webapp, together with theorems settling the spec claims about it.

Conventions of the embedding:
* JS strings are Lean `String`s; `String.prototype.toLowerCase` is
  `lowercase` below (per-character lowering; addresses are ASCII hex).
* A JS object used as a map (`edge.types`) is a `List (String × Nat)` in
  `Object.entries` order; a JS array is a `List`.
* A JS `Set<string>` is a duplicate-free `List String` in insertion order;
  `Set.add` is `addToSet`.
* SVG presentation attributes carry small decimal values (0.1, 0.2, 0.6,
  1, 1.5, 3).  They are stored scaled by ten as `Nat` (1, 2, 6, 10, 15,
  30) so that states stay kernel-decidable; colors are the literal hex
  strings from the source.
-/

namespace CrystalClear

/-- JS `String.prototype.toLowerCase`, applied per character (the
addresses handled by the component are ASCII hex strings). -/
def lowercase (s : String) : String := ⟨s.data.map Char.toLower⟩

/-- `Node` from `types/graph`: `{id: address, group: "main" | "other"}`. -/
structure Node where
  id : String
  group : String
deriving DecidableEq

/-- `Link` from `types/graph` after `drawGraph`'s flatMap: one link per
(edge, interaction kind) pair.  In the source `source`/`target` start as
id strings (later mutated by d3-force into object references whose `.id`
is the same string); the embedding keeps the id strings. -/
structure Link where
  source : String
  target : String
  type : String
  count : Nat
deriving DecidableEq

/-- `RawEdge`: one entry of `GraphData.edges`; `types` is the
`interactionKind → count` object in `Object.entries` order. -/
structure RawEdge where
  source : String
  target : String
  types : List (String × Nat)
deriving DecidableEq

/-- `GraphData` payload: subject `address` plus the raw edges (the
optional `nodes` display-name map plays no role in the claims). -/
structure GraphData where
  address : String
  edges : List RawEdge
deriving DecidableEq

namespace drawGraph

/-- `drawGraph`, link construction:
`(data.edges || []).flatMap(edge => Object.entries(edge.types || {}).map(
  ([type, count]) => ({source: edge.source, target: edge.target, type, count})))`. -/
def links (data : GraphData) : List Link :=
  data.edges.flatMap fun edge =>
    edge.types.map fun tc =>
      { source := edge.source, target := edge.target, type := tc.1, count := tc.2 }

/-- JS `Set.add` on a set represented as its insertion-ordered element
list: appends the element iff it is not already present (exact string
equality, as `Set<string>` compares). -/
def addToSet (s : List String) (x : String) : List String :=
  if x ∈ s then s else s ++ [x]

/-- `drawGraph`, node identity set:
`const nodeSet = new Set<string>(); links.forEach(l => {nodeSet.add(l.source); nodeSet.add(l.target);})`. -/
def nodeSet (data : GraphData) : List String :=
  (links data).foldl (fun s l => addToSet (addToSet s l.source) l.target) []

/-- `drawGraph`, node construction:
`Array.from(nodeSet).map(id => ({id, group: id.toLowerCase() === data.address.toLowerCase() ? "main" : "other"}))`. -/
def nodes (data : GraphData) : List Node :=
  (nodeSet data).map fun id =>
    { id := id
      group := if lowercase id = lowercase data.address then "main" else "other" }

end drawGraph

/-- The component's empty-result overlay condition:
`jsonData && jsonData.edges && jsonData.edges.length === 0` (with a
payload present, `edges` is an array and hence truthy). -/
def showNoDependenciesOverlay (data : GraphData) : Bool :=
  data.edges.length == 0

/-! Spec-side reference definitions used to state the claims about the
node set (the builder itself is `drawGraph.nodeSet` above). -/

/-- All endpoint occurrences of a link list, sources and targets in link
order. -/
def endpointList (ls : List Link) : List String :=
  ls.flatMap fun l => [l.source, l.target]

/-- Keep the first occurrence of every string, dropping later duplicates:
the "unique, in order of first appearance" reading of the claims. -/
def firstOccurAux (seen : List String) : List String → List String
  | [] => []
  | x :: xs =>
      if x ∈ seen then firstOccurAux seen xs
      else x :: firstOccurAux (x :: seen) xs

/-- First-occurrence filtering starting from nothing seen. -/
def firstOccur (l : List String) : List String := firstOccurAux [] l

namespace drawGraph

theorem mem_addToSet {s : List String} {x y : String} :
    y ∈ addToSet s x ↔ y ∈ s ∨ y = x := by
  unfold addToSet
  by_cases hx : x ∈ s
  · simp only [if_pos hx]
    constructor
    · exact Or.inl
    · rintro (h | rfl)
      · exact h
      · exact hx
  · simp [if_neg hx]

theorem nodup_addToSet {s : List String} {x : String} (h : s.Nodup) :
    (addToSet s x).Nodup := by
  unfold addToSet
  by_cases hx : x ∈ s
  · simpa [if_pos hx]
  · rw [if_neg hx]
    simp [List.nodup_append, h, hx]

/-- A JS-`Set` insertion fold equals first-occurrence filtering appended
to the accumulator, for any `seen` list with the same members as the
accumulator. -/
theorem foldl_addToSet_eq (l : List String) :
    ∀ acc seen : List String, (∀ y, y ∈ seen ↔ y ∈ acc) →
      l.foldl addToSet acc = acc ++ firstOccurAux seen l := by
  induction l with
  | nil => intro acc seen _; simp [firstOccurAux]
  | cons x xs ih =>
      intro acc seen hss
      by_cases hx : x ∈ acc
      · have hxseen : x ∈ seen := (hss x).mpr hx
        rw [List.foldl_cons]
        have hstep : addToSet acc x = acc := by simp [addToSet, if_pos hx]
        rw [hstep, firstOccurAux, if_pos hxseen]
        exact ih acc seen hss
      · have hxseen : x ∉ seen := fun h => hx ((hss x).mp h)
        rw [List.foldl_cons]
        have hstep : addToSet acc x = acc ++ [x] := by simp [addToSet, if_neg hx]
        rw [hstep, firstOccurAux, if_neg hxseen]
        have h' : ∀ y, y ∈ x :: seen ↔ y ∈ acc ++ [x] := by
          intro y
          simp only [List.mem_cons, List.mem_append, List.mem_singleton]
          rw [hss y]
          tauto
        rw [ih (acc ++ [x]) (x :: seen) h']
        simp

theorem mem_foldl_addToSet (l : List String) :
    ∀ acc : List String, ∀ y, y ∈ l.foldl addToSet acc ↔ y ∈ acc ∨ y ∈ l := by
  induction l with
  | nil => intro acc y; simp
  | cons x xs ih =>
      intro acc y
      rw [List.foldl_cons, ih (addToSet acc x) y, mem_addToSet]
      simp only [List.mem_cons]
      tauto

theorem nodup_foldl_addToSet (l : List String) :
    ∀ acc : List String, acc.Nodup → (l.foldl addToSet acc).Nodup := by
  induction l with
  | nil => intro acc h; simpa
  | cons x xs ih =>
      intro acc h
      exact ih _ (nodup_addToSet h)

theorem foldl_pairs_eq_foldl_endpoints (ls : List Link) :
    ∀ acc : List String,
      ls.foldl (fun s l => addToSet (addToSet s l.source) l.target) acc =
        (endpointList ls).foldl addToSet acc := by
  induction ls with
  | nil => intro acc; rfl
  | cons l ls ih =>
      intro acc
      simp only [endpointList, List.flatMap_cons, List.foldl_cons, List.foldl_append]
      exact ih (addToSet (addToSet acc l.source) l.target)

/-- `nodeSet` adds source then target of each link: this is the plain
insertion fold over the interleaved endpoint stream. -/
theorem nodeSet_eq_foldl_endpoints (data : GraphData) :
    nodeSet data = (endpointList (links data)).foldl addToSet [] := by
  unfold nodeSet
  exact foldl_pairs_eq_foldl_endpoints (links data) []

/-- The node identity set is exactly first-occurrence filtering of the
endpoint stream of the expanded links. -/
theorem nodeSet_eq_firstOccur (data : GraphData) :
    nodeSet data = firstOccur (endpointList (links data)) := by
  rw [nodeSet_eq_foldl_endpoints]
  have h := foldl_addToSet_eq (endpointList (links data)) [] [] (by simp)
  simpa [firstOccur] using h

theorem mem_nodeSet (data : GraphData) (y : String) :
    y ∈ nodeSet data ↔ ∃ l ∈ links data, l.source = y ∨ l.target = y := by
  rw [nodeSet_eq_foldl_endpoints]
  rw [mem_foldl_addToSet (endpointList (links data)) [] y]
  simp only [List.not_mem_nil, false_or, endpointList, List.mem_flatMap]
  constructor
  · rintro ⟨l, hl, hy⟩
    refine ⟨l, hl, ?_⟩
    simpa [eq_comm] using hy
  · rintro ⟨l, hl, hy⟩
    refine ⟨l, hl, ?_⟩
    simpa [eq_comm] using hy

theorem nodup_nodeSet (data : GraphData) : (nodeSet data).Nodup := by
  rw [nodeSet_eq_foldl_endpoints]
  exact nodup_foldl_addToSet _ [] (by simp)

end drawGraph

/-- The inner lambda of the links flatMap: one `Link` per entry of the
edge's `types` object. -/
def expandEdge (edge : RawEdge) : List Link :=
  edge.types.map fun tc =>
    { source := edge.source, target := edge.target, type := tc.1, count := tc.2 }

/-- Payload refuting C1: two casings of one address, plus an edge whose
`types` object is empty. -/
def payloadC1 : GraphData :=
  { address := "0xAAA"
    edges :=
      [ { source := "0xAAA", target := "0xaaa", types := [("call", 1)] }
      , { source := "0xCCC", target := "0xDDD", types := [] } ] }

/-- C1 fails on the code: the builder deduplicates node ids with a JS
`Set<string>` over the raw strings, so the two casings `0xAAA` and
`0xaaa` of one lowercase address yield two distinct nodes, and the
endpoints of an edge with an empty `types` map (here `0xCCC`, `0xDDD`)
appear in `P.edges` but in no node, so the node set is not the set of
unique lowercase addresses of `P.edges`. -/
theorem C1_counterexample :
    (drawGraph.nodes payloadC1).map Node.id = ["0xAAA", "0xaaa"] ∧
    lowercase "0xAAA" = lowercase "0xaaa" ∧
    "0xAAA" ≠ "0xaaa" ∧
    (∀ n ∈ drawGraph.nodes payloadC1, lowercase n.id ≠ "0xccc") := by
  decide

/-- C1 (amended): for every payload the built node ids are the endpoint
strings of the expanded links (edges with an empty types map contribute
nothing), deduplicated by exact string equality — not case-insensitively
— keeping the first occurrence, in order of first appearance. -/
theorem C1_nodes_are_exact_endpoint_strings_in_first_appearance_order
    (data : GraphData) :
    ((drawGraph.nodes data).map Node.id =
        firstOccur (endpointList (drawGraph.links data))) ∧
    ((drawGraph.nodes data).map Node.id).Nodup ∧
    (∀ x : String, (∃ n ∈ drawGraph.nodes data, n.id = x) ↔
        ∃ l ∈ drawGraph.links data, l.source = x ∨ l.target = x) := by
  have hids : (drawGraph.nodes data).map Node.id = drawGraph.nodeSet data := by
    unfold drawGraph.nodes
    rw [List.map_map]
    exact List.map_id _
  refine ⟨?_, ?_, ?_⟩
  · rw [hids]
    exact drawGraph.nodeSet_eq_firstOccur data
  · rw [hids]
    exact drawGraph.nodup_nodeSet data
  · intro x
    rw [← drawGraph.mem_nodeSet data x, ← hids]
    simp

/-- Payload refuting C6: the subject address occurs under two casings,
so two built nodes carry group "main". -/
def payloadC6 : GraphData :=
  { address := "0xAAA"
    edges := [ { source := "0xAAA", target := "0xaaa", types := [("call", 1)] } ] }

/-- C6 fails on the code: the subject address appears as an endpoint of
`P.edges`, yet two nodes (the two casings, deduplicated case-sensitively)
both satisfy the case-insensitive group test and get group "main" — not
exactly one. -/
theorem C6_counterexample :
    (∃ l ∈ drawGraph.links payloadC6, l.source = payloadC6.address) ∧
    ((drawGraph.nodes payloadC6).filter (fun n => n.group == "main")).length = 2 := by
  decide

/-- C6 (amended): a built node has group "main" iff its id equals
`P.address` case-insensitively, and whenever `P.address` appears
case-insensitively as an endpoint of an expanded link, at least one
(not necessarily exactly one) built node has group "main". -/
theorem C6_group_main_iff_address_match (data : GraphData) :
    (∀ n ∈ drawGraph.nodes data,
        (n.group = "main" ↔ lowercase n.id = lowercase data.address)) ∧
    ((∃ l ∈ drawGraph.links data,
        lowercase l.source = lowercase data.address ∨
        lowercase l.target = lowercase data.address) →
      ∃ n ∈ drawGraph.nodes data, n.group = "main") := by
  constructor
  · intro n hn
    unfold drawGraph.nodes at hn
    obtain ⟨id, _, rfl⟩ := List.mem_map.mp hn
    by_cases h : lowercase id = lowercase data.address
    · simp [h]
    · simp [h]
  · rintro ⟨l, hl, hcase⟩
    have hmk : ∀ e : String, lowercase e = lowercase data.address →
        e ∈ drawGraph.nodeSet data →
        ∃ n ∈ drawGraph.nodes data, n.group = "main" := by
      intro e he hmem
      refine ⟨{ id := e, group := "main" }, ?_, rfl⟩
      unfold drawGraph.nodes
      apply List.mem_map.mpr
      exact ⟨e, hmem, by simp [he]⟩
    rcases hcase with h | h
    · exact hmk l.source h
        ((drawGraph.mem_nodeSet data l.source).mpr ⟨l, hl, Or.inl rfl⟩)
    · exact hmk l.target h
        ((drawGraph.mem_nodeSet data l.target).mpr ⟨l, hl, Or.inr rfl⟩)

/-- Payload witnessing the amended C6 at a concrete input. -/
def payloadC6w : GraphData :=
  { address := "0xAbC"
    edges := [ { source := "0xabc", target := "0xdef", types := [("call", 2)] } ] }

/-- Witness: the amended C6 applied at a concrete payload whose subject
address appears (in different casing) as a link endpoint. -/
theorem C6_group_main_iff_address_match_witness :
    ∃ n ∈ drawGraph.nodes payloadC6w, n.group = "main" :=
  (C6_group_main_iff_address_match payloadC6w).2 (by decide)

/-- C7: each raw edge with k interaction kinds expands to exactly k
links, all sharing the edge's (source, target) pair, one per kind with
that kind's count; the full link list is the concatenation of the
per-edge expansions. -/
theorem C7_edge_expansion (data : GraphData) :
    drawGraph.links data = data.edges.flatMap expandEdge ∧
    ∀ e ∈ data.edges,
      (expandEdge e).length = e.types.length ∧
      (∀ l ∈ expandEdge e, l.source = e.source ∧ l.target = e.target) ∧
      (expandEdge e).map (fun l => (l.type, l.count)) = e.types := by
  refine ⟨rfl, ?_⟩
  intro e _
  refine ⟨List.length_map _ _, ?_, ?_⟩
  · intro l hl
    obtain ⟨tc, _, rfl⟩ := List.mem_map.mp hl
    exact ⟨rfl, rfl⟩
  · unfold expandEdge
    rw [List.map_map]
    exact List.map_id _

/-- Edge used by the C7 witness. -/
def edgeC7 : RawEdge :=
  { source := "0xAAA", target := "0xBBB", types := [("call", 3), ("staticcall", 1)] }

/-- Payload used by the C7 witness. -/
def payloadC7 : GraphData := { address := "0xAAA", edges := [edgeC7] }

/-- Witness: C7 applied to a concrete edge with two interaction kinds. -/
theorem C7_edge_expansion_witness :
    (expandEdge edgeC7).length = 2 ∧
    (∀ l ∈ expandEdge edgeC7, l.source = "0xAAA" ∧ l.target = "0xBBB") ∧
    (expandEdge edgeC7).map (fun l => (l.type, l.count)) =
      [("call", 3), ("staticcall", 1)] :=
  (C7_edge_expansion payloadC7).2 edgeC7 (by decide)

/-- C8: an empty-edges payload is handled, not an error: the builder
yields zero links and zero nodes, and the component's empty-result
overlay condition selects the explicit "no dependencies" message. -/
theorem C8_empty_edges_payload (data : GraphData) (h : data.edges = []) :
    drawGraph.links data = [] ∧
    drawGraph.nodes data = [] ∧
    showNoDependenciesOverlay data = true := by
  have hlinks : drawGraph.links data = [] := by
    unfold drawGraph.links
    rw [h]
    rfl
  refine ⟨hlinks, ?_, ?_⟩
  · unfold drawGraph.nodes drawGraph.nodeSet
    rw [hlinks]
    rfl
  · unfold showNoDependenciesOverlay
    rw [h]
    rfl

/-- Witness: C8 applied to a concrete payload with an empty edge list. -/
theorem C8_empty_edges_payload_witness :
    drawGraph.links { address := "0xAAA", edges := [] } = [] ∧
    drawGraph.nodes { address := "0xAAA", edges := [] } = [] ∧
    showNoDependenciesOverlay { address := "0xAAA", edges := [] } = true :=
  C8_empty_edges_payload { address := "0xAAA", edges := [] } rfl

/-!
Highlight effect.  The component's highlight `useEffect` rewrites, on
every run, the presentation attributes of every node circle and every
link line: first an unconditional reset (`opacity 1`, `stroke-width 1.5`
for circles; `stroke-opacity 0.6`, `stroke "#999"` for lines), then, when
`highlightAddress` is set, a dim pass (`opacity 0.2` / `stroke-opacity
0.1`) followed by a focus pass on the CSS-selected elements.  The CSS
classes were assigned at draw time from the lowercased ids
(`node-[id.toLowerCase()]`, `link-[src] link-[tgt]`), while the selectors
interpolate `highlightAddress` verbatim, so selection is exact string
equality between `highlightAddress` and a lowercased id.  Attribute
values are stored scaled by ten. -/

namespace Highlight

/-- The circle attributes written by the highlight effect (scaled ×10:
opacity 1 ↦ 10, 0.2 ↦ 2; stroke-width 1.5 ↦ 15, 3 ↦ 30). -/
structure NodeVis where
  opacity : Nat
  strokeWidth : Nat
deriving DecidableEq

/-- The line attributes written by the highlight effect (stroke-opacity
scaled ×10: 0.6 ↦ 6, 0.1 ↦ 1, 1 ↦ 10). -/
structure LinkVis where
  strokeOpacity : Nat
  stroke : String
deriving DecidableEq

/-- selectAll("circle").attr("opacity", 1).attr("stroke-width", 1.5). -/
def resetNodes (s : List (Node × NodeVis)) : List (Node × NodeVis) :=
  s.map fun p => (p.1, { opacity := 10, strokeWidth := 15 })

/-- selectAll("line").attr("stroke-opacity", 0.6).attr("stroke", "#999"). -/
def resetLinks (s : List (Link × LinkVis)) : List (Link × LinkVis) :=
  s.map fun p => (p.1, { strokeOpacity := 6, stroke := "#999" })

/-- selectAll("circle").attr("opacity", 0.2). -/
def dimNodes (s : List (Node × NodeVis)) : List (Node × NodeVis) :=
  s.map fun p => (p.1, { p.2 with opacity := 2 })

/-- selectAll("line").attr("stroke-opacity", 0.1). -/
def dimLinks (s : List (Link × LinkVis)) : List (Link × LinkVis) :=
  s.map fun p => (p.1, { p.2 with strokeOpacity := 1 })

/-- Whether the selector `.node-[a]` matches a circle whose class is
`node-[id.toLowerCase()]`: exact token equality, i.e. `a` must equal the
lowercased id verbatim. -/
def nodeClassMatches (a : String) (n : Node) : Bool :=
  lowercase n.id == a

/-- selectAll(".node-[a]").attr("opacity", 1).attr("stroke-width", 3). -/
def focusNodes (a : String) (s : List (Node × NodeVis)) : List (Node × NodeVis) :=
  s.map fun p =>
    if nodeClassMatches a p.1 then (p.1, { opacity := 10, strokeWidth := 30 }) else p

/-- Whether the selector `line.link-[a]` matches a line whose classes are
`link-[source.toLowerCase()] link-[target.toLowerCase()]`. -/
def linkClassMatches (a : String) (l : Link) : Bool :=
  lowercase l.source == a || lowercase l.target == a

/-- The stroke chosen for a highlighted link: red `#ff6666` when either
lowercased endpoint equals the subject address lowercased (a direct
edge), orange `#ff9933` otherwise (transitive). -/
def strokeFor (subject : String) (l : Link) : String :=
  if lowercase l.source == lowercase subject || lowercase l.target == lowercase subject
  then "#ff6666" else "#ff9933"

/-- selectAll("line.link-[a]").attr("stroke-opacity", 1).attr("stroke", …). -/
def focusLinks (subject a : String) (s : List (Link × LinkVis)) : List (Link × LinkVis) :=
  s.map fun p =>
    if linkClassMatches a p.1
    then (p.1, { strokeOpacity := 10, stroke := strokeFor subject p.1 }) else p

/-- One run of the highlight `useEffect`: unconditional reset of every
circle and line, then — iff `highlightAddress` is non-null — dim
everything and raise the selected node and links. -/
def highlightEffect (subject : String) (highlightAddress : Option String)
    (ns : List (Node × NodeVis)) (ls : List (Link × LinkVis)) :
    List (Node × NodeVis) × List (Link × LinkVis) :=
  let ns1 := resetNodes ns
  let ls1 := resetLinks ls
  match highlightAddress with
  | none => (ns1, ls1)
  | some a => (focusNodes a (dimNodes ns1), focusLinks subject a (dimLinks ls1))

/-- Per-element closed form of one effect run: the resulting attributes
depend only on the element's datum and the inputs, not on the previous
attribute state. -/
theorem highlightEffect_eq (subject : String) (h : Option String)
    (ns : List (Node × NodeVis)) (ls : List (Link × LinkVis)) :
    highlightEffect subject h ns ls =
      ( ns.map fun p =>
          (p.1, match h with
                | none => ⟨10, 15⟩
                | some a =>
                    if nodeClassMatches a p.1 then ⟨10, 30⟩ else (⟨2, 15⟩ : NodeVis))
      , ls.map fun p =>
          (p.1, match h with
                | none => ⟨6, "#999"⟩
                | some a =>
                    if linkClassMatches a p.1
                    then ⟨10, strokeFor subject p.1⟩ else (⟨1, "#999"⟩ : LinkVis)) ) := by
  cases h with
  | none => rfl
  | some a =>
      unfold highlightEffect focusNodes focusLinks dimNodes dimLinks resetNodes resetLinks
      refine Prod.ext ?_ ?_
      · simp only [List.map_map]
        apply List.map_congr_left
        intro p _
        by_cases hc : nodeClassMatches a p.1 = true
        · simp [Function.comp, hc]
        · simp [Function.comp, hc]
      · simp only [List.map_map]
        apply List.map_congr_left
        intro p _
        by_cases hc : linkClassMatches a p.1 = true
        · simp [Function.comp, hc]
        · simp [Function.comp, hc]

end Highlight

/-- Scenario graph of C3: subject `0xAAA`, single edge `0xAAA → 0xBBB`
with one `call` interaction; drawn node circles in default state. -/
def nsC3 : List (Node × Highlight.NodeVis) :=
  [ ({ id := "0xAAA", group := "main" }, { opacity := 10, strokeWidth := 15 })
  , ({ id := "0xBBB", group := "other" }, { opacity := 10, strokeWidth := 15 }) ]

/-- Scenario graph of C3: the single drawn link line in default state. -/
def lsC3 : List (Link × Highlight.LinkVis) :=
  [ ({ source := "0xAAA", target := "0xBBB", type := "call", count := 3 }
    , { strokeOpacity := 6, stroke := "#999" }) ]

/-- C3 fails on the code as stated: focused-address matching is not
case-insensitive.  The CSS classes were generated from lowercased ids,
the selectors interpolate the focused address verbatim, so
`Focus("0xBBB")` (the claim's own scenario literal) matches neither the
class `node-0xbbb` nor `link-0xbbb`: on the single-edge graph both nodes
and the link stay dimmed instead of rendering at full opacity. -/
theorem C3_counterexample :
    Highlight.highlightEffect "0xAAA" (some "0xBBB") nsC3 lsC3 =
      ( [ ({ id := "0xAAA", group := "main" }, { opacity := 2, strokeWidth := 15 })
        , ({ id := "0xBBB", group := "other" }, { opacity := 2, strokeWidth := 15 }) ]
      , [ ({ source := "0xAAA", target := "0xBBB", type := "call", count := 3 }
          , { strokeOpacity := 1, stroke := "#999" }) ] ) := by
  decide

/-- C3 (amended): the focused address is compared verbatim against the
lowercased node id (the in-app producer lowercases before focusing, so a
node is focused by the lowercase form of its address).  For every graph
and focused address `a`: nodes whose lowercased id equals `a` rise to
full opacity (stroke-width 3), all others dim to 0.2; links with `a`
among their lowercased endpoints rise to full stroke-opacity, colored
red `#ff6666` ("direct") iff an endpoint matches the subject address
case-insensitively and orange `#ff9933` ("transitive") otherwise; all
other links dim to 0.1.  In particular `Focus("0xbbb")` on the
single-edge graph renders `0xBBB` and the `0xAAA–0xBBB` link at full
opacity, colored direct. -/
theorem C3_focused_highlight_dims_and_raises
    (subject a : String) (ns : List (Node × Highlight.NodeVis))
    (ls : List (Link × Highlight.LinkVis)) :
    (Highlight.highlightEffect subject (some a) ns ls =
      ( ns.map fun p =>
          (p.1, if Highlight.nodeClassMatches a p.1
                then { opacity := 10, strokeWidth := 30 }
                else { opacity := 2, strokeWidth := 15 })
      , ls.map fun p =>
          (p.1, if Highlight.linkClassMatches a p.1
                then { strokeOpacity := 10, stroke := Highlight.strokeFor subject p.1 }
                else { strokeOpacity := 1, stroke := "#999" }) )) ∧
    Highlight.highlightEffect "0xAAA" (some (lowercase "0xBBB")) nsC3 lsC3 =
      ( [ ({ id := "0xAAA", group := "main" }, { opacity := 2, strokeWidth := 15 })
        , ({ id := "0xBBB", group := "other" }, { opacity := 10, strokeWidth := 30 }) ]
      , [ ({ source := "0xAAA", target := "0xBBB", type := "call", count := 3 }
          , { strokeOpacity := 10, stroke := "#ff6666" }) ] ) := by
  constructor
  · exact Highlight.highlightEffect_eq subject (some a) ns ls
  · decide

/-- C9: one run of the highlight effect rewrites every attribute it ever
touches, so running `Focus(a)` twice yields the state of running it
once, and running Neutral (no focused address) from any state restores
every node and link to the default attributes. -/
theorem C9_highlight_idempotent_and_neutral_resets
    (subject : String) (h : Option String)
    (ns : List (Node × Highlight.NodeVis)) (ls : List (Link × Highlight.LinkVis)) :
    (Highlight.highlightEffect subject h
        (Highlight.highlightEffect subject h ns ls).1
        (Highlight.highlightEffect subject h ns ls).2 =
      Highlight.highlightEffect subject h ns ls) ∧
    Highlight.highlightEffect subject none ns ls =
      ( ns.map fun p => (p.1, { opacity := 10, strokeWidth := 15 })
      , ls.map fun p => (p.1, { strokeOpacity := 6, stroke := "#999" }) ) := by
  constructor
  · rw [Highlight.highlightEffect_eq subject h ns ls]
    rw [Highlight.highlightEffect_eq subject h]
    dsimp only
    rw [List.map_map, List.map_map]
    rfl
  · rfl

/-!
Hover enrichment.  `mouseover` on a node circle stores the hovered id and
an empty info object, then issues two independent fetches
(`/api/balance?id=…`, `/api/company?id=…`); each `.then` handler merges
its field into the current info via a functional state update
(`setHoveredNodeInfo(prev => ({...prev, field: value}))`), each `.catch`
merges `field: null, error: true`.  `mouseout` nulls both pieces of
state.  The fetch handlers run whenever the response arrives — the
single-threaded event loop interleaves them arbitrarily with other
events, which the event list below models. -/

namespace Hover

/-- `NodeHoverInfo`: the partial JS object held in `hoveredNodeInfo`.
The outer `Option` of each field is key presence (`none` = key absent);
`balance`/`company` values may themselves be null. -/
structure NodeHoverInfo where
  balance : Option (Option Int) := none
  company : Option (Option String) := none
  error : Option Bool := none
deriving DecidableEq

/-- `Object.keys(nodeInfo).length` for the three possible keys. -/
def keyCount (i : NodeHoverInfo) : Nat :=
  (if i.balance.isSome then 1 else 0) +
    (if i.company.isSome then 1 else 0) +
    (if i.error.isSome then 1 else 0)

/-- The component state the hover logic touches: the two `useState`
cells, the in-flight fetches by requested node id, and the dragging
flag consulted by the mouseover guard. -/
structure HoverState where
  hoveredNodeId : Option String
  hoveredNodeInfo : Option NodeHoverInfo
  pendingBalance : List String
  pendingCompany : List String
  dragging : Bool
deriving DecidableEq

/-- Event-loop events touching the hover state: pointer events and the
four fetch-settlement callbacks (tagged with the node id the fetch was
issued for, and the response value on success). -/
inductive Event where
  | mouseover (id : String)
  | mouseout
  | balanceOk (id : String) (v : Int)
  | balanceErr (id : String)
  | companyOk (id : String) (v : String)
  | companyErr (id : String)
deriving DecidableEq

/-- The `prev` seen by a functional state update: the current info, or
(as `{...null}` would give) the empty object when the state is null. -/
def prevInfo (s : HoverState) : NodeHoverInfo :=
  s.hoveredNodeInfo.getD {}

/-- One event-loop step.  Fetch settlements require a matching in-flight
fetch (consuming it) and then run the source's `.then`/`.catch` handler
verbatim: the handler merges into the current info unconditionally —
there is no check that `id` is still the hovered node. -/
def step (s : HoverState) : Event → HoverState
  | .mouseover id =>
      if s.dragging then s
      else
        { s with
          hoveredNodeId := some id
          hoveredNodeInfo := some {}
          pendingBalance := s.pendingBalance ++ [id]
          pendingCompany := s.pendingCompany ++ [id] }
  | .mouseout =>
      { s with hoveredNodeId := none, hoveredNodeInfo := none }
  | .balanceOk id v =>
      if id ∈ s.pendingBalance then
        { s with
          pendingBalance := s.pendingBalance.erase id
          hoveredNodeInfo := some { prevInfo s with balance := some (some v) } }
      else s
  | .balanceErr id =>
      if id ∈ s.pendingBalance then
        { s with
          pendingBalance := s.pendingBalance.erase id
          hoveredNodeInfo :=
            some { prevInfo s with balance := some none, error := some true } }
      else s
  | .companyOk id v =>
      if id ∈ s.pendingCompany then
        { s with
          pendingCompany := s.pendingCompany.erase id
          hoveredNodeInfo := some { prevInfo s with company := some (some v) } }
      else s
  | .companyErr id =>
      if id ∈ s.pendingCompany then
        { s with
          pendingCompany := s.pendingCompany.erase id
          hoveredNodeInfo :=
            some { prevInfo s with company := some none, error := some true } }
      else s

/-- Run a list of event-loop events. -/
def run (s : HoverState) (es : List Event) : HoverState :=
  es.foldl step s

/-- The component's initial hover state. -/
def initState : HoverState :=
  { hoveredNodeId := none, hoveredNodeInfo := none
    pendingBalance := [], pendingCompany := [], dragging := false }

/-- Whether an event is one of the four fetch-settlement callbacks. -/
def isFetchSettlement : Event → Bool
  | .mouseover _ => false
  | .mouseout => false
  | _ => true

/-- The render condition of the card:
`{hoveredNodeId && hoveredNodeInfo && <NodeHoverCard …/>}` — a JS string
is truthy iff non-empty, an object (even `{}`) is always truthy. -/
def showNodeHoverCard (s : HoverState) : Bool :=
  (match s.hoveredNodeId with
   | some i => !(i == "")
   | none => false) && s.hoveredNodeInfo.isSome

/-- What the `NodeHoverCard` body renders: the loading line, the error
branch with its hardcoded placeholder texts, or the two fetched fields
(null/absent values render as empty text). -/
inductive CardBody where
  | loading
  | errorFallback (balanceText companyText : String)
  | fields (balanceText companyText : String)
deriving DecidableEq

/-- Text rendered for `{nodeInfo.balance}`. -/
def renderBalanceText : Option (Option Int) → String
  | some (some v) => toString v
  | _ => ""

/-- Text rendered for `{nodeInfo.company}`. -/
def renderCompanyText : Option (Option String) → String
  | some (some v) => v
  | _ => ""

/-- `NodeHoverCard` body:
`nodeInfo === null || Object.keys(nodeInfo).length === 0` → loading;
`nodeInfo.error` truthy → the italic placeholder branch rendering the
literals `500` and `CCinc`; otherwise the fetched values. -/
def renderNodeHoverCard (nodeInfo : Option NodeHoverInfo) : CardBody :=
  match nodeInfo with
  | none => .loading
  | some i =>
      if keyCount i == 0 then .loading
      else if i.error.getD false then .errorFallback "500" "CCinc"
      else .fields (renderBalanceText i.balance) (renderCompanyText i.company)

/-- Fetch settlements never change which node is recorded as hovered. -/
theorem hoveredNodeId_step_settlement (s : HoverState) (e : Event)
    (he : isFetchSettlement e = true) :
    (step s e).hoveredNodeId = s.hoveredNodeId := by
  cases e with
  | mouseover id => simp [isFetchSettlement] at he
  | mouseout => simp [isFetchSettlement] at he
  | balanceOk id v =>
      simp only [step]
      split <;> rfl
  | balanceErr id =>
      simp only [step]
      split <;> rfl
  | companyOk id v =>
      simp only [step]
      split <;> rfl
  | companyErr id =>
      simp only [step]
      split <;> rfl

theorem hoveredNodeId_run_settlements (es : List Event) :
    ∀ s : HoverState, (∀ e ∈ es, isFetchSettlement e = true) →
      (run s es).hoveredNodeId = s.hoveredNodeId := by
  induction es with
  | nil => intro s _; rfl
  | cons e es ih =>
      intro s h
      have h1 : isFetchSettlement e = true := h e (List.mem_cons_self e es)
      have h2 : ∀ e' ∈ es, isFetchSettlement e' = true :=
        fun e' he' => h e' (List.mem_cons_of_mem e he')
      show (run (step s e) es).hoveredNodeId = s.hoveredNodeId
      rw [ih (step s e) h2, hoveredNodeId_step_settlement s e h1]

end Hover

/-- Event trace refuting C4: hover node `0xaaa` (issuing its fetches),
hover node `0xbbb`, then the balance response for `0xaaa` arrives. -/
def traceC4 : List Hover.Event :=
  [ .mouseover "0xaaa", .mouseover "0xbbb", .balanceOk "0xaaa" 7 ]

/-- C4 fails on the code: the balance fetched for `0xaaa` resolves while
`0xbbb` is the hovered node, yet its `.then` handler merges the value
into the hover info unchecked — the stale result is applied (and will be
shown on `0xbbb`'s card), not discarded. -/
theorem C4_counterexample :
    (Hover.run Hover.initState traceC4).hoveredNodeId = some "0xbbb" ∧
    (Hover.run Hover.initState traceC4).hoveredNodeInfo =
      some { balance := some (some 7) } ∧
    "0xaaa" ≠ "0xbbb" := by
  decide

/-- C4 (amended): the settlement handlers contain no
is-this-still-the-hovered-node check: a balance response for `id` is
merged into the current hover info unconditionally, whether or not `id`
is still hovered; it never changes which node is recorded as hovered. -/
theorem C4_settlement_applies_result_unconditionally
    (s : Hover.HoverState) (id : String) (v : Int)
    (hp : id ∈ s.pendingBalance) :
    (Hover.step s (.balanceOk id v)).hoveredNodeId = s.hoveredNodeId ∧
    (Hover.step s (.balanceOk id v)).hoveredNodeInfo =
      some { Hover.prevInfo s with balance := some (some v) } := by
  simp only [Hover.step]
  rw [if_pos hp]
  exact ⟨rfl, rfl⟩

/-- Witness: the amended C4 at a state where `0xbbb` is hovered but a
balance fetch for `0xaaa` is still in flight. -/
theorem C4_settlement_applies_result_unconditionally_witness :
    (Hover.step
        { hoveredNodeId := some "0xbbb", hoveredNodeInfo := some {}
          pendingBalance := ["0xaaa"], pendingCompany := [], dragging := false }
        (.balanceOk "0xaaa" 7)).hoveredNodeId = some "0xbbb" ∧
    (Hover.step
        { hoveredNodeId := some "0xbbb", hoveredNodeInfo := some {}
          pendingBalance := ["0xaaa"], pendingCompany := [], dragging := false }
        (.balanceOk "0xaaa" 7)).hoveredNodeInfo =
      some { balance := some (some 7) } :=
  C4_settlement_applies_result_unconditionally
    { hoveredNodeId := some "0xbbb", hoveredNodeInfo := some {}
      pendingBalance := ["0xaaa"], pendingCompany := [], dragging := false }
    "0xaaa" 7 (by decide)

/-- Event trace refuting C5: hover `0xaaa`, company lookup succeeds with
`Acme`, then the balance lookup fails. -/
def traceC5 : List Hover.Event :=
  [ .mouseover "0xaaa", .companyOk "0xaaa" "Acme", .balanceErr "0xaaa" ]

/-- C5 fails on the code: after a successful company lookup and a failed
balance lookup, the stored info still holds the company value `Acme`,
but the card's error branch replaces both fields with the hardcoded
placeholder texts `500` and `CCinc` — the successful company result is
not displayed and the failed balance surfaces a substitute value, not an
unavailable state. -/
theorem C5_counterexample :
    (Hover.run Hover.initState traceC5).hoveredNodeInfo =
      some { balance := some none, company := some (some "Acme"), error := some true } ∧
    Hover.renderNodeHoverCard (Hover.run Hover.initState traceC5).hoveredNodeInfo =
      .errorFallback "500" "CCinc" := by
  decide

/-- C5 (amended): hover issues the two lookups together and each failure
is caught locally at the state level — a balance failure rewrites only
the balance and error fields, leaving a previously stored company result
intact, and settlement is total (no rejection escapes) — but whenever
the error flag has been set by either failure, the card renders the
fixed placeholder texts `500` and `CCinc` for both fields, so one
lookup's failure does suppress display of the other's successful value
and a failed field shows a substitute value, not an explicit unavailable
state. -/
theorem C5_error_branch_shows_placeholders
    (s : Hover.HoverState) (id : String) (i : Hover.NodeHoverInfo)
    (hd : s.dragging = false)
    (hb : id ∈ s.pendingBalance) (hc : id ∈ s.pendingCompany)
    (he : i.error = some true) :
    ((Hover.step s (.mouseover id)).pendingBalance = s.pendingBalance ++ [id] ∧
     (Hover.step s (.mouseover id)).pendingCompany = s.pendingCompany ++ [id]) ∧
    (Hover.step s (.balanceErr id)).hoveredNodeInfo =
      some { Hover.prevInfo s with balance := some none, error := some true } ∧
    (Hover.step s (.companyErr id)).hoveredNodeInfo =
      some { Hover.prevInfo s with company := some none, error := some true } ∧
    Hover.renderNodeHoverCard (some i) = .errorFallback "500" "CCinc" := by
  refine ⟨?_, ?_, ?_, ?_⟩
  · simp only [Hover.step]
    rw [if_neg (by simp [hd])]
    exact ⟨rfl, rfl⟩
  · simp only [Hover.step]
    rw [if_pos hb]
  · simp only [Hover.step]
    rw [if_pos hc]
  · have hkey : (Hover.keyCount i == 0) = false := by
      rw [beq_eq_false_iff_ne]
      unfold Hover.keyCount
      rw [he]
      simp
    simp only [Hover.renderNodeHoverCard]
    rw [hkey, he]
    simp

/-- Witness: the amended C5 at a concrete state with both fetches in
flight and an info record whose company succeeded and whose error flag
is set. -/
theorem C5_error_branch_shows_placeholders_witness :
    ((Hover.step
        { hoveredNodeId := none, hoveredNodeInfo := none
          pendingBalance := ["0xaaa"], pendingCompany := ["0xaaa"], dragging := false }
        (.mouseover "0xaaa")).pendingBalance = ["0xaaa", "0xaaa"] ∧
     (Hover.step
        { hoveredNodeId := none, hoveredNodeInfo := none
          pendingBalance := ["0xaaa"], pendingCompany := ["0xaaa"], dragging := false }
        (.mouseover "0xaaa")).pendingCompany = ["0xaaa", "0xaaa"]) ∧
    (Hover.step
        { hoveredNodeId := none, hoveredNodeInfo := none
          pendingBalance := ["0xaaa"], pendingCompany := ["0xaaa"], dragging := false }
        (.balanceErr "0xaaa")).hoveredNodeInfo =
      some { balance := some none, error := some true } ∧
    (Hover.step
        { hoveredNodeId := none, hoveredNodeInfo := none
          pendingBalance := ["0xaaa"], pendingCompany := ["0xaaa"], dragging := false }
        (.companyErr "0xaaa")).hoveredNodeInfo =
      some { company := some none, error := some true } ∧
    Hover.renderNodeHoverCard
        (some { company := some (some "Acme"), error := some true }) =
      .errorFallback "500" "CCinc" := by
  have h := C5_error_branch_shows_placeholders
    { hoveredNodeId := none, hoveredNodeInfo := none
      pendingBalance := ["0xaaa"], pendingCompany := ["0xaaa"], dragging := false }
    "0xaaa" { company := some (some "Acme"), error := some true }
    rfl (by decide) (by decide) rfl
  exact h

/-- C10 (implicit): mouseout nulls both the hovered id and the hover
info; rendering the card requires both to be non-null; and since fetch
settlements never re-populate the hovered id, no sequence of in-flight
fetch settlements arriving after mouseout can make the card render. -/
theorem C10_no_card_after_mouseout
    (s : Hover.HoverState) (es : List Hover.Event)
    (h : ∀ e ∈ es, Hover.isFetchSettlement e = true) :
    (Hover.step s .mouseout).hoveredNodeId = none ∧
    (Hover.step s .mouseout).hoveredNodeInfo = none ∧
    (∀ t : Hover.HoverState, Hover.showNodeHoverCard t = true →
      t.hoveredNodeId.isSome ∧ t.hoveredNodeInfo.isSome) ∧
    Hover.showNodeHoverCard (Hover.run (Hover.step s .mouseout) es) = false := by
  refine ⟨rfl, rfl, ?_, ?_⟩
  · intro t ht
    unfold Hover.showNodeHoverCard at ht
    rw [Bool.and_eq_true] at ht
    constructor
    · match hid : t.hoveredNodeId with
      | some i => rfl
      | none => rw [hid] at ht; exact absurd ht.1 (by simp)
    · exact ht.2
  · have hid : (Hover.run (Hover.step s .mouseout) es).hoveredNodeId = none := by
      rw [Hover.hoveredNodeId_run_settlements es (Hover.step s .mouseout) h]
      rfl
    unfold Hover.showNodeHoverCard
    rw [hid]
    rfl

/-!
Teardown and the flow-dot animation loop.  Each flow dot runs an
informal coroutine: a 2000ms travel transition, then a 200ms fade-out
transition, then — only if the dot still has a parent in the DOM — a
`setTimeout` restart after a random delay, whose handle is discarded.
The unmount cleanup effect stops `simulationRef.current`, removes all
SVG children (detaching the dots) and the zoom listeners, and nulls the
three selection refs; it contains no `clearTimeout` and no transition
interrupt, so already-scheduled restart delays are untouched.  The
new-payload redraw path (`graphDrawnRef.current = false; drawGraph(...)`)
likewise removes the old elements and overwrites `simulationRef.current`
with the freshly created simulation without stopping the previous one. -/

namespace Teardown

/-- Phase of one flow dot's animation coroutine. -/
inductive DotPhase where
  | traveling
  | fading
  | waiting
  | done
deriving DecidableEq

/-- The lifecycle state the cleanup effect touches: running flags of the
simulations created so far (the last one is `simulationRef.current`),
attachment of the rendered elements (the dots' parents), the zoom
listener, the three stored selection/behavior refs, and the dot
phases. -/
structure CompState where
  simulations : List Bool
  domAttached : Bool
  zoomListenerAttached : Bool
  svgSelectionRef : Bool
  gSelectionRef : Bool
  zoomBehaviorRef : Bool
  dots : List DotPhase
deriving DecidableEq

/-- `simulationRef.current.stop()`: only the most recently created
simulation is stopped. -/
def stopCurrent : List Bool → List Bool
  | [] => []
  | [_] => [false]
  | b :: rest => b :: stopCurrent rest

/-- The unmount cleanup effect: stop the current simulation, remove all
rendered elements, remove the zoom listeners, null the refs.  The dot
phases are untouched: the effect contains no `clearTimeout`, so a
pending restart delay stays scheduled. -/
def cleanup (s : CompState) : CompState :=
  { simulations := stopCurrent s.simulations
    domAttached := false
    zoomListenerAttached := false
    svgSelectionRef := false
    gSelectionRef := false
    zoomBehaviorRef := false
    dots := s.dots }

/-- `drawGraph` on a new payload, as it affects the simulations: a new
running simulation is appended (and stored in `simulationRef.current`);
the previous one is not stopped anywhere on this path. -/
def newPayloadSimulations (sims : List Bool) : List Bool :=
  sims ++ [true]

/-- Scheduler events of one dot's coroutine: its travel transition ends,
its fade-out transition ends, or its pending restart timer fires. -/
inductive DotEvent where
  | travelEnd
  | fadeEnd
  | timerFire
deriving DecidableEq

/-- One scheduler delivery to a dot.  `attached` is whether the dot
still has a DOM parent: the fade-out end handler schedules the restart
timer only under `parent && select(parent).node()`; events that do not
match the phase are no-ops. -/
def stepDot (attached : Bool) : DotPhase → DotEvent → DotPhase
  | .traveling, .travelEnd => .fading
  | .fading, .fadeEnd => if attached then .waiting else .done
  | .waiting, .timerFire => .traveling
  | p, _ => p

/-- How many restart timers fire along a delivery sequence (a fire is a
`timerFire` delivered to a dot actually in the waiting phase). -/
def timerFires (attached : Bool) : DotPhase → List DotEvent → Nat
  | _, [] => 0
  | p, e :: es =>
      (if p = .waiting ∧ e = .timerFire then 1 else 0) +
        timerFires attached (stepDot attached p e) es

/-- While detached, no event ever brings a dot back into the waiting
phase (the restart is only scheduled when a parent is present). -/
theorem stepDot_detached_not_waiting (p : DotPhase) (e : DotEvent)
    (h : p ≠ .waiting) : stepDot false p e ≠ .waiting := by
  cases p <;> cases e <;> simp_all [stepDot]

theorem timerFires_detached_of_not_waiting (es : List DotEvent) :
    ∀ p : DotPhase, p ≠ .waiting → timerFires false p es = 0 := by
  induction es with
  | nil => intro p _; rfl
  | cons e es ih =>
      intro p hp
      unfold timerFires
      rw [if_neg (by simp [hp])]
      rw [ih (stepDot false p e) (stepDot_detached_not_waiting p e hp)]

/-- After detachment a dot's restart timer fires at most once: the one
already scheduled may still go off, and nothing reschedules. -/
theorem timerFires_detached_le_one (es : List DotEvent) :
    ∀ p : DotPhase, timerFires false p es ≤ 1 := by
  induction es with
  | nil => intro p; exact Nat.zero_le 1
  | cons e es ih =>
      intro p
      unfold timerFires
      by_cases hw : p = DotPhase.waiting ∧ e = DotEvent.timerFire
      · rw [if_pos hw]
        obtain ⟨hp, he⟩ := hw
        subst hp he
        have h0 : timerFires false (stepDot false .waiting .timerFire) es = 0 :=
          timerFires_detached_of_not_waiting es _ (by simp [stepDot])
        rw [h0]
      · rw [if_neg hw]
        simpa using ih (stepDot false p e)

/-- `getLast?` of `stopCurrent`: the simulation held in
`simulationRef.current` is indeed stopped. -/
theorem stopCurrent_getLast (sims : List Bool) (h : sims ≠ []) :
    (stopCurrent sims).getLast? = some false := by
  induction sims with
  | nil => exact absurd rfl h
  | cons b rest ih =>
      cases rest with
      | nil => rfl
      | cons c rest' =>
          have ihh := ih (by simp)
          show ((b :: stopCurrent (c :: rest')).getLast? = some false)
          cases hsc : stopCurrent (c :: rest') with
          | nil => rw [hsc] at ihh; simp at ihh
          | cons d t =>
              rw [hsc] at ihh
              rw [List.getLast?_cons_cons]
              exact ihh

end Teardown

/-- Lifecycle state refuting C2: one running simulation, a mounted graph
whose single dot is in its randomized restart delay. -/
def stateC2 : Teardown.CompState :=
  { simulations := [true]
    domAttached := true
    zoomListenerAttached := true
    svgSelectionRef := true
    gSelectionRef := true
    zoomBehaviorRef := true
    dots := [.waiting] }

/-- C2 fails on the code: the unmount cleanup contains no `clearTimeout`,
so the dot's pending randomized restart delay survives teardown and
fires once more after unmount (`timerFires … = 1`, not `0`); and on
new-payload arrival `drawGraph` appends a fresh running simulation
without stopping the previous one, so ticks of the previous graph's
simulator can still fire. -/
theorem C2_counterexample :
    (Teardown.cleanup stateC2).dots = [Teardown.DotPhase.waiting] ∧
    Teardown.timerFires (Teardown.cleanup stateC2).domAttached
      Teardown.DotPhase.waiting [Teardown.DotEvent.timerFire] = 1 ∧
    Teardown.newPayloadSimulations [true] = [true, true] := by
  decide

/-- C2 (amended): unmount teardown stops the current simulator, removes
the rendered elements and zoom listeners, and nulls the viewport refs —
so no simulator tick or zoom callback of the torn-down graph fires after
unmount — but pending per-link restart delays are not cancelled: a dot
left in its waiting phase fires its already-scheduled timer at most once
more, and since the detached fade-out handler never reschedules, the
animation loop then terminates (a dot not in the waiting phase never
fires again at all). -/
theorem C2_teardown_stops_except_pending_restart_timers
    (s : Teardown.CompState) (p : Teardown.DotPhase) (es : List Teardown.DotEvent)
    (hs : s.simulations ≠ []) :
    (Teardown.cleanup s).simulations.getLast? = some false ∧
    (Teardown.cleanup s).domAttached = false ∧
    (Teardown.cleanup s).zoomListenerAttached = false ∧
    (Teardown.cleanup s).svgSelectionRef = false ∧
    (Teardown.cleanup s).gSelectionRef = false ∧
    (Teardown.cleanup s).zoomBehaviorRef = false ∧
    (Teardown.cleanup s).dots = s.dots ∧
    Teardown.timerFires (Teardown.cleanup s).domAttached p es ≤ 1 ∧
    (p ≠ .waiting →
      Teardown.timerFires (Teardown.cleanup s).domAttached p es = 0) := by
  refine ⟨Teardown.stopCurrent_getLast s.simulations hs, rfl, rfl, rfl, rfl, rfl, rfl, ?_, ?_⟩
  · exact Teardown.timerFires_detached_le_one es p
  · intro hp
    exact Teardown.timerFires_detached_of_not_waiting es p hp

/-- Witness: the amended C2 at the concrete mounted state, with the dot
in its restart delay and the full post-unmount event run. -/
theorem C2_teardown_stops_except_pending_restart_timers_witness :
    (Teardown.cleanup stateC2).simulations.getLast? = some false ∧
    Teardown.timerFires (Teardown.cleanup stateC2).domAttached
      Teardown.DotPhase.waiting
      [Teardown.DotEvent.timerFire, Teardown.DotEvent.travelEnd,
       Teardown.DotEvent.fadeEnd, Teardown.DotEvent.timerFire] ≤ 1 := by
  have h := C2_teardown_stops_except_pending_restart_timers stateC2
    Teardown.DotPhase.waiting
    [Teardown.DotEvent.timerFire, Teardown.DotEvent.travelEnd,
     Teardown.DotEvent.fadeEnd, Teardown.DotEvent.timerFire]
    (by decide)
  exact ⟨h.1, h.2.2.2.2.2.2.2.1⟩

/-- Witness: C10 on the concrete stale trace — after mouseout a late
balance settlement repopulates the info, yet the card stays hidden. -/
theorem C10_no_card_after_mouseout_witness :
    Hover.showNodeHoverCard
        (Hover.run
          (Hover.step
            { hoveredNodeId := some "0xaaa", hoveredNodeInfo := some {}
              pendingBalance := ["0xaaa"], pendingCompany := [], dragging := false }
            .mouseout)
          [.balanceOk "0xaaa" 7]) = false :=
  (C10_no_card_after_mouseout
    { hoveredNodeId := some "0xaaa", hoveredNodeInfo := some {}
      pendingBalance := ["0xaaa"], pendingCompany := [], dragging := false }
    [.balanceOk "0xaaa" 7] (by decide)).2.2.2

end CrystalClear
